import Mathlib

/-!
Shallow embedding of the in-memory todo HTTP service (`src/index.js`).

The service keeps a global array `users`; every handler either pushes to it
or mutates (in place) the user resolved by the `checksExistsUserAccount`
middleware.  We model the store as a `List User` threaded functionally:
in-place mutation of the resolved user (or of the found todo) becomes a
first-match functional update of the list (`mutateFirst`), which is faithful
because JavaScript's `Array.prototype.find` returns the first matching
element and the handlers mutate exactly that object.

Representation choices:
  * JavaScript strings that can be `undefined` (a missing body field or a
    missing header) are `Option String`; `===` on them is `==` on
    `Option String` (`undefined === undefined` is `true`, matching
    `none == none`).
  * `uuidv4()` and the current clock are nondeterministic inputs, so each
    handler that uses them takes the generated id / timestamp as an explicit
    argument.
  * Timestamps are integers (milliseconds); `new Date(deadline)` parsing is
    modelled as the already-parsed integer timestamp carried by the request.
  * An HTTP response is its status code plus its JSON body.
-/

set_option autoImplicit false

namespace TodoApp

/-- A todo record, as built by `app.post('/todos')`: `id`, `title`, `done`,
`deadline`, `created_at`. -/
structure Todo where
  id : String
  title : Option String
  done : Bool
  deadline : Int
  created_at : Int
deriving Repr, DecidableEq

/-- A user record, as built by `app.post('/users')`: `id`, `name`, `username`,
`todos`.  The extra `todo` field models the stray `user.todo = ...` property
assigned by the PUT and PATCH handlers (absent/`undefined` is `none`). -/
structure User where
  id : String
  name : Option String
  username : Option String
  todos : List Todo
  todo : Option Todo := none
deriving Repr, DecidableEq

/-- The JSON body of a response: an error message object, a serialized user,
a serialized todo, a todo list, or the empty body of `.json()`. -/
inductive Body where
  | errorMsg (msg : String)
  | userJson (u : User)
  | todoJson (t : Todo)
  | todosJson (ts : List Todo)
  | empty
deriving Repr, DecidableEq

/-- An HTTP response: status code (express defaults to 200) and JSON body. -/
structure Response where
  status : Nat
  body : Body
deriving Repr, DecidableEq

/-- The lookup done by the middleware `checksExistsUserAccount`:
`users.find(user => user.username === username)` where `username` comes from
the request headers (possibly absent). -/
def checksExistsUserAccount (users : List User) (username : Option String) :
    Option User :=
  users.find? (fun user => user.username == username)

/-- `app.post('/users')`: rejects with 400 if some stored user's `username`
is `===` the requested one, otherwise pushes a fresh user (empty `todos`)
and returns it with 201.  `newId` stands for `uuidv4()`. -/
def postUsers (users : List User) (newId : String)
    (name username : Option String) : Response × List User :=
  match users.find? (fun user => user.username == username) with
  | some _ => ({ status := 400, body := .errorMsg "Usuário já cadastrado!" }, users)
  | none =>
      let user : User := { id := newId, name := name, username := username,
                           todos := [], todo := none }
      ({ status := 201, body := .userJson user }, users ++ [user])

/-- `app.get('/todos')` (after the middleware): returns the resolved user's
`todos` verbatim with the default 200 status, touching nothing. -/
def getTodos (user : User) : Response × User :=
  ({ status := 200, body := .todosJson user.todos }, user)

/-- `app.post('/todos')` (after the middleware): builds a todo with
`done: false`, `deadline: new Date(deadline)`, `created_at: new Date()`,
pushes it at the end of `user.todos`, and returns it with 201.
`newId` stands for `uuidv4()` and `now` for `new Date()`. -/
def postTodos (user : User) (newId : String) (title : Option String)
    (deadline now : Int) : Response × User :=
  let todo : Todo := { id := newId, title := title, done := false,
                       deadline := deadline, created_at := now }
  ({ status := 201, body := .todoJson todo },
   { user with todos := user.todos ++ [todo] })

/-- In-place mutation of the first element matched by a JavaScript
`find`: `mutateFirst p f l` locates the first `x` with `p x`, replaces it by
`(f x).2` and reports `(f x).1`, or returns `none` when nothing matches. -/
def mutateFirst {α β : Type} (p : α → Bool) (f : α → β × α) :
    List α → Option (β × List α)
  | [] => none
  | x :: xs =>
      if p x then
        some ((f x).1, (f x).2 :: xs)
      else
        match mutateFirst p f xs with
        | none => none
        | some (r, xs') => some (r, x :: xs')

/-- `app.put('/todos/:id')` (after the middleware): runs
`user.todo = user.todos.find(todo => todo.id === id)`; if nothing was found
it answers 404 (with `user.todo` now `undefined`), otherwise it overwrites
`title` and `deadline` of the found todo in place and returns it. -/
def putTodos (user : User) (id : String) (title : Option String)
    (deadline : Int) : Response × User :=
  match mutateFirst (fun todo => todo.id == id)
      (fun todo => ({ todo with title := title, deadline := deadline },
                    { todo with title := title, deadline := deadline }))
      user.todos with
  | none =>
      ({ status := 404, body := .errorMsg "TODO não encontrado!" },
       { user with todo := none })
  | some (todo', todos') =>
      ({ status := 200, body := .todoJson todo' },
       { user with todos := todos', todo := some todo' })

/-- `app.patch('/todos/:id/done')` (after the middleware): same find-and-assign
as PUT; on success sets `done = true` on the found todo and returns it. -/
def patchTodosDone (user : User) (id : String) : Response × User :=
  match mutateFirst (fun todo => todo.id == id)
      (fun todo => ({ todo with done := true }, { todo with done := true }))
      user.todos with
  | none =>
      ({ status := 404, body := .errorMsg "TODO não encontrado!" },
       { user with todo := none })
  | some (todo', todos') =>
      ({ status := 200, body := .todoJson todo' },
       { user with todos := todos', todo := some todo' })

/-- JavaScript `Array.prototype.findIndex` (with `-1` rendered as `none`). -/
def findIndex {α : Type} (p : α → Bool) : List α → Option Nat
  | [] => none
  | x :: xs => if p x then some 0 else (findIndex p xs).map (· + 1)

/-- `app.delete('/todos/:id')` (after the middleware):
`findIndex(todo => todo.id === id)`; 404 when `-1`, otherwise
`splice(todoIndex, 1)` and a bodyless 204.  Does not touch `user.todo`. -/
def deleteTodo (user : User) (id : String) : Response × User :=
  match findIndex (fun todo => todo.id == id) user.todos with
  | none => ({ status := 404, body := .errorMsg "TODO não encontrado!" }, user)
  | some todoIndex =>
      ({ status := 204, body := .empty },
       { user with todos := user.todos.eraseIdx todoIndex })

/-- One inbound todo request (everything routed behind the middleware). -/
inductive TodoRequest where
  | list
  | create (title : Option String) (deadline : Int)
  | update (id : String) (title : Option String) (deadline : Int)
  | complete (id : String)
  | del (id : String)
deriving Repr, DecidableEq

/-- Dispatch of a `TodoRequest` to its handler, once the middleware has
resolved `user`.  `newId` and `now` feed `uuidv4()` / `new Date()` where the
handler uses them. -/
def runTodoOp (req : TodoRequest) (newId : String) (now : Int) (user : User) :
    Response × User :=
  match req with
  | .list => getTodos user
  | .create title deadline => postTodos user newId title deadline now
  | .update id title deadline => putTodos user id title deadline
  | .complete id => patchTodosDone user id
  | .del id => deleteTodo user id

/-- The express pipeline `checksExistsUserAccount` → handler: extract the
`username` header, find the user; if absent answer 400 "Usuário não
encontrado!" without running the handler; otherwise run the handler on the
resolved user (the store sees the in-place mutation of that user). -/
def route (users : List User) (username : Option String)
    (handler : User → Response × User) : Response × List User :=
  match mutateFirst (fun user => user.username == username) handler users with
  | none => ({ status := 400, body := .errorMsg "Usuário não encontrado!" }, users)
  | some (resp, users') => (resp, users')

/-- A whole todo request against the store: middleware then dispatch. -/
def handleTodoRequest (users : List User) (username : Option String)
    (req : TodoRequest) (newId : String) (now : Int) : Response × List User :=
  route users username (runTodoOp req newId now)

/-- States of the `users` store reachable from the initial empty array by
any sequence of requests. -/
inductive Reachable : List User → Prop where
  | init : Reachable []
  | post : ∀ {users : List User} (newId : String) (name username : Option String),
      Reachable users → Reachable (postUsers users newId name username).2
  | todo : ∀ {users : List User} (username : Option String) (req : TodoRequest)
      (newId : String) (now : Int),
      Reachable users → Reachable (handleTodoRequest users username req newId now).2

/-- No two stored users share a `username` value. -/
def UniqueUsernames (users : List User) : Prop :=
  (users.map User.username).Nodup

/-! ### Helper lemmas about `mutateFirst`, `findIndex`, `find?` -/

theorem mutateFirst_eq_none {α β : Type} {p : α → Bool} (f : α → β × α)
    {l : List α} (h : ∀ x ∈ l, p x = false) : mutateFirst p f l = none := by
  induction l with
  | nil => rfl
  | cons x xs ih =>
      have hx : p x = false := h x (List.mem_cons_self x xs)
      have hxs : mutateFirst p f xs = none :=
        ih fun y hy => h y (List.mem_cons_of_mem x hy)
      simp [mutateFirst, hx, hxs]

theorem findIndex_eq_none {α : Type} {p : α → Bool} {l : List α}
    (h : ∀ x ∈ l, p x = false) : findIndex p l = none := by
  induction l with
  | nil => rfl
  | cons x xs ih =>
      have hx : p x = false := h x (List.mem_cons_self x xs)
      have hxs : findIndex p xs = none :=
        ih fun y hy => h y (List.mem_cons_of_mem x hy)
      simp [findIndex, hx, hxs]

/-- Every list with a `p`-match decomposes at the first match. -/
theorem exists_first_match {α : Type} (p : α → Bool) :
    ∀ l : List α, (∃ x ∈ l, p x = true) →
      ∃ l1 x l2, l = l1 ++ x :: l2 ∧ (∀ y ∈ l1, p y = false) ∧ p x = true
  | [], h => by simp at h
  | x :: xs, h => by
      cases hx : p x with
      | true => exact ⟨[], x, xs, rfl, by simp, hx⟩
      | false =>
          have hxs : ∃ y ∈ xs, p y = true := by
            obtain ⟨y, hy, hpy⟩ := h
            rcases List.mem_cons.mp hy with rfl | hy'
            · rw [hx] at hpy; exact absurd hpy (by simp)
            · exact ⟨y, hy', hpy⟩
          obtain ⟨l1, z, l2, hsplit, hl1, hpz⟩ := exists_first_match p xs hxs
          refine ⟨x :: l1, z, l2, by simp [hsplit], ?_, hpz⟩
          intro y hy
          rcases List.mem_cons.mp hy with rfl | hy'
          · exact hx
          · exact hl1 y hy'

theorem mutateFirst_of_split {α β : Type} (p : α → Bool) (f : α → β × α)
    (l1 : List α) (x : α) (l2 : List α)
    (h1 : ∀ y ∈ l1, p y = false) (hx : p x = true) :
    mutateFirst p f (l1 ++ x :: l2) = some ((f x).1, l1 ++ (f x).2 :: l2) := by
  induction l1 with
  | nil => simp [mutateFirst, hx]
  | cons a l1 ih =>
      have ha : p a = false := h1 a (List.mem_cons_self a l1)
      have := ih fun y hy => h1 y (List.mem_cons_of_mem a hy)
      simp [mutateFirst, ha, this]

theorem findIndex_of_split {α : Type} (p : α → Bool)
    (l1 : List α) (x : α) (l2 : List α)
    (h1 : ∀ y ∈ l1, p y = false) (hx : p x = true) :
    findIndex p (l1 ++ x :: l2) = some l1.length := by
  induction l1 with
  | nil => simp [findIndex, hx]
  | cons a l1 ih =>
      have ha : p a = false := h1 a (List.mem_cons_self a l1)
      have := ih fun y hy => h1 y (List.mem_cons_of_mem a hy)
      simp [findIndex, ha, this]

theorem eraseIdx_append_length {α : Type} (l1 : List α) (x : α) (l2 : List α) :
    (l1 ++ x :: l2).eraseIdx l1.length = l1 ++ l2 := by
  induction l1 with
  | nil => rfl
  | cons a l1 ih => simp [List.eraseIdx, ih]

theorem find?_of_split {α : Type} (p : α → Bool)
    (l1 : List α) (x : α) (l2 : List α)
    (h1 : ∀ y ∈ l1, p y = false) (hx : p x = true) :
    (l1 ++ x :: l2).find? p = some x := by
  induction l1 with
  | nil => simp [List.find?, hx]
  | cons a l1 ih =>
      have ha : p a = false := h1 a (List.mem_cons_self a l1)
      have := ih fun y hy => h1 y (List.mem_cons_of_mem a hy)
      simp [List.find?, ha, this]

theorem find?_eq_some_split {α : Type} {p : α → Bool} :
    ∀ {l : List α} {x : α}, l.find? p = some x →
      ∃ l1 l2, l = l1 ++ x :: l2 ∧ (∀ y ∈ l1, p y = false) ∧ p x = true
  | [], x, h => by simp at h
  | a :: l, x, h => by
      cases ha : p a with
      | true =>
          rw [List.find?_cons_of_pos _ ha, Option.some.injEq] at h
          exact ⟨[], l, by rw [h]; rfl, by simp, h ▸ ha⟩
      | false =>
          rw [List.find?_cons_of_neg _ (by simp [ha])] at h
          obtain ⟨l1, l2, hsplit, hl1, hx⟩ := find?_eq_some_split h
          refine ⟨a :: l1, l2, by simp [hsplit], ?_, hx⟩
          intro y hy
          rcases List.mem_cons.mp hy with rfl | hy'
          · exact ha
          · exact hl1 y hy'

/-- `mutateFirst` leaves any projection preserved by the mutation intact. -/
theorem mutateFirst_map_eq {α β γ : Type} {p : α → Bool} {f : α → β × α}
    (g : α → γ) (hf : ∀ x, g (f x).2 = g x) :
    ∀ {l : List α} {r : β} {l' : List α},
      mutateFirst p f l = some (r, l') → l'.map g = l.map g
  | [], r, l', h => by simp [mutateFirst] at h
  | x :: xs, r, l', h => by
      cases hx : p x with
      | true =>
          rw [mutateFirst, if_pos hx, Option.some.injEq] at h
          obtain ⟨-, hl'⟩ := Prod.mk.injEq .. ▸ h
          subst hl'
          simp [hf x]
      | false =>
          rw [mutateFirst, if_neg (by simp [hx])] at h
          cases hxs : mutateFirst p f xs with
          | none => rw [hxs] at h; exact absurd h (by simp)
          | some r' =>
              rw [hxs] at h
              cases r' with
              | mk r'' xs' =>
                  rw [Option.some.injEq] at h
                  obtain ⟨-, hl'⟩ := Prod.mk.injEq .. ▸ h
                  subst hl'
                  simp [mutateFirst_map_eq g hf hxs]

/-- The reported value of a duplicate-style mutation is the mutated image of
the JavaScript `find` result. -/
theorem mutateFirst_dup_fst {α : Type} (p : α → Bool) (g : α → α) :
    ∀ l : List α,
      (mutateFirst p (fun x => (g x, g x)) l).map Prod.fst = (l.find? p).map g
  | [] => rfl
  | x :: xs => by
      cases hx : p x with
      | true => simp [mutateFirst, hx, List.find?_cons_of_pos _ hx]
      | false =>
          have ih := mutateFirst_dup_fst p g xs
          rw [List.find?_cons_of_neg _ (by simp [hx])]
          cases hxs : mutateFirst p (fun x => (g x, g x)) xs with
          | none => rw [hxs] at ih; simp [mutateFirst, hx, hxs, ← ih]
          | some r => rw [hxs] at ih; simp [mutateFirst, hx, hxs, ← ih]

/-- `mutateFirst` relates the projections of old and new list pointwise when
the mutation only moves the projection along a reflexive relation. -/
theorem mutateFirst_map_rel {α β γ : Type} {p : α → Bool} {f : α → β × α}
    (g : α → γ) (R : γ → γ → Prop) (hrefl : ∀ c, R c c)
    (hf : ∀ x, R (g x) (g (f x).2)) :
    ∀ {l : List α} {r : β} {l' : List α},
      mutateFirst p f l = some (r, l') → List.Forall₂ R (l.map g) (l'.map g)
  | [], r, l', h => by simp [mutateFirst] at h
  | x :: xs, r, l', h => by
      cases hx : p x with
      | true =>
          rw [mutateFirst, if_pos hx, Option.some.injEq] at h
          obtain ⟨-, hl'⟩ := Prod.mk.injEq .. ▸ h
          subst hl'
          exact List.Forall₂.cons (hf x) (List.forall₂_same.mpr fun c _ => hrefl c)
      | false =>
          rw [mutateFirst, if_neg (by simp [hx])] at h
          cases hxs : mutateFirst p f xs with
          | none => rw [hxs] at h; exact absurd h (by simp)
          | some r' =>
              rw [hxs] at h
              cases r' with
              | mk r'' xs' =>
                  rw [Option.some.injEq] at h
                  obtain ⟨-, hl'⟩ := Prod.mk.injEq .. ▸ h
                  subst hl'
                  exact List.Forall₂.cons (hrefl (g x))
                    (mutateFirst_map_rel g R hrefl hf hxs)

/-! ### The todo handlers never touch a user's `username` -/

theorem putTodos_username (user : User) (id : String) (title : Option String)
    (deadline : Int) :
    ((putTodos user id title deadline).2).username = user.username := by
  unfold putTodos; split <;> rfl

theorem patchTodosDone_username (user : User) (id : String) :
    ((patchTodosDone user id).2).username = user.username := by
  unfold patchTodosDone; split <;> rfl

theorem deleteTodo_username (user : User) (id : String) :
    ((deleteTodo user id).2).username = user.username := by
  unfold deleteTodo; split <;> rfl

theorem runTodoOp_username (req : TodoRequest) (newId : String) (now : Int)
    (user : User) : ((runTodoOp req newId now user).2).username = user.username := by
  cases req with
  | list => rfl
  | create title deadline => rfl
  | update id title deadline => exact putTodos_username user id title deadline
  | complete id => exact patchTodosDone_username user id
  | del id => exact deleteTodo_username user id

theorem handleTodoRequest_usernames (users : List User) (username : Option String)
    (req : TodoRequest) (newId : String) (now : Int) :
    ((handleTodoRequest users username req newId now).2).map User.username
      = users.map User.username := by
  unfold handleTodoRequest route
  split
  · rfl
  · next resp users' hm =>
      exact mutateFirst_map_eq User.username
        (fun u => runTodoOp_username req newId now u) hm

theorem postUsers_uniqueUsernames (users : List User) (newId : String)
    (name username : Option String) (h : UniqueUsernames users) :
    UniqueUsernames (postUsers users newId name username).2 := by
  unfold postUsers
  split
  · exact h
  · next hf =>
      have hmem : username ∉ users.map User.username := by
        intro hmem
        obtain ⟨x, hx, hxe⟩ := List.mem_map.mp hmem
        have hpx := List.find?_eq_none.mp hf x hx
        simp [hxe] at hpx
      unfold UniqueUsernames at h ⊢
      simp [List.nodup_append, h, hmem]

/-- The store invariant: every reachable store has pairwise distinct
usernames. -/
theorem reachable_uniqueUsernames {users : List User} (h : Reachable users) :
    UniqueUsernames users := by
  induction h with
  | init => simp [UniqueUsernames]
  | post newId name username _ ih =>
      exact postUsers_uniqueUsernames _ newId name username ih
  | todo username req newId now _ ih =>
      unfold UniqueUsernames at ih ⊢
      rw [handleTodoRequest_usernames]
      exact ih

/-! ### Per-handler facts about the `done` flags -/

theorem putTodos_dones (u : User) (i : String) (title : Option String)
    (dl : Int) :
    ((putTodos u i title dl).2).todos.map Todo.done = u.todos.map Todo.done := by
  unfold putTodos
  split
  · rfl
  · next t' ts' hm => exact (mutateFirst_map_eq Todo.done (fun x => rfl) hm)

theorem patchTodosDone_done_mono (u : User) (i : String) :
    List.Forall₂ (fun a b => a = true → b = true)
      (u.todos.map Todo.done) (((patchTodosDone u i).2).todos.map Todo.done) := by
  unfold patchTodosDone
  split
  · exact List.forall₂_same.mpr fun c _ => id
  · next t' ts' hm =>
      exact mutateFirst_map_rel Todo.done _ (fun c h => h) (fun x _ => rfl) hm

theorem postTodos_dones (u : User) (newId : String) (title : Option String)
    (dl now : Int) :
    ((postTodos u newId title dl now).2).todos.map Todo.done
      = u.todos.map Todo.done ++ [false] := by
  simp [postTodos]

theorem deleteTodo_todos_sublist (u : User) (i : String) :
    ((deleteTodo u i).2).todos.Sublist u.todos := by
  unfold deleteTodo
  split
  · exact List.Sublist.refl _
  · next idx hm => exact List.eraseIdx_sublist u.todos idx

/-! ### Closed forms of each handler at a first-match decomposition -/

theorem putTodos_eq_of_split (user : User) (id : String) (title : Option String)
    (deadline : Int) (l1 : List Todo) (t : Todo) (l2 : List Todo)
    (hsplit : user.todos = l1 ++ t :: l2)
    (hl1 : ∀ y ∈ l1, (y.id == id) = false) (hpt : (t.id == id) = true) :
    putTodos user id title deadline
      = ({ status := 200,
           body := .todoJson { t with title := title, deadline := deadline } },
         { user with
             todos := l1 ++ { t with title := title, deadline := deadline } :: l2,
             todo := some { t with title := title, deadline := deadline } }) := by
  unfold putTodos
  rw [hsplit, mutateFirst_of_split _ _ l1 t l2 hl1 hpt]

theorem patchTodosDone_eq_of_split (user : User) (id : String)
    (l1 : List Todo) (t : Todo) (l2 : List Todo)
    (hsplit : user.todos = l1 ++ t :: l2)
    (hl1 : ∀ y ∈ l1, (y.id == id) = false) (hpt : (t.id == id) = true) :
    patchTodosDone user id
      = ({ status := 200, body := .todoJson { t with done := true } },
         { user with todos := l1 ++ { t with done := true } :: l2,
                     todo := some { t with done := true } }) := by
  unfold patchTodosDone
  rw [hsplit, mutateFirst_of_split _ _ l1 t l2 hl1 hpt]

theorem deleteTodo_eq_of_split (user : User) (id : String)
    (l1 : List Todo) (t : Todo) (l2 : List Todo)
    (hsplit : user.todos = l1 ++ t :: l2)
    (hl1 : ∀ y ∈ l1, (y.id == id) = false) (hpt : (t.id == id) = true) :
    deleteTodo user id
      = ({ status := 204, body := .empty }, { user with todos := l1 ++ l2 }) := by
  unfold deleteTodo
  rw [hsplit, findIndex_of_split _ l1 t l2 hl1 hpt]
  have := eraseIdx_append_length l1 t l2
  simp [this]

/-! ### Closed forms of `postUsers` -/

theorem postUsers_conflict (users : List User) (newId : String)
    (name u : Option String) (h : ∃ x ∈ users, x.username = u) :
    (postUsers users newId name u).1.status = 400
    ∧ (postUsers users newId name u).2 = users := by
  have hp : ∃ y ∈ users, (y.username == u) = true := by
    obtain ⟨x, hx, hxe⟩ := h
    exact ⟨x, hx, by simp [hxe]⟩
  obtain ⟨l1, y, l2, hsplit, hl1, hpy⟩ := exists_first_match _ users hp
  have hf : users.find? (fun user => user.username == u) = some y := by
    rw [hsplit]; exact find?_of_split _ l1 y l2 hl1 hpy
  unfold postUsers
  rw [hf]
  exact ⟨rfl, rfl⟩

theorem postUsers_fresh (users : List User) (newId : String)
    (name u : Option String) (h : ∀ x ∈ users, x.username ≠ u) :
    postUsers users newId name u
      = ({ status := 201,
           body := .userJson { id := newId, name := name, username := u,
                               todos := [], todo := none } },
         users ++ [{ id := newId, name := name, username := u, todos := [],
                     todo := none }]) := by
  have hf : users.find? (fun user => user.username == u) = none :=
    List.find?_eq_none.mpr fun x hx => by
      simp [beq_eq_false_iff_ne.mpr (h x hx)]
  unfold postUsers
  rw [hf]

/-! ### Sample data used by the concrete witnesses -/

def sampleTodo : Todo :=
  { id := "t-1", title := some "buy milk", done := false,
    deadline := 1704067200000, created_at := 1700000000000 }

def sampleUser : User :=
  { id := "u-1", name := some "Ana", username := some "ana",
    todos := [sampleTodo], todo := none }

/-- A user created from a request body with no `username` field at all. -/
def anonUser : User :=
  { id := "u-0", name := none, username := none, todos := [], todo := none }

/-! ### The claims -/

/-- C2: for a resolved user and an id matching none of the user's todos,
PUT `/todos/:id`, PATCH `/todos/:id/done` and DELETE `/todos/:id` each
answer 404 with the "TODO não encontrado!" error body and leave the user's
`todos` sequence exactly as it was. -/
theorem missing_id_not_found (user : User) (id : String) (title : Option String)
    (deadline : Int) (h : ∀ t ∈ user.todos, t.id ≠ id) :
    putTodos user id title deadline
        = ({ status := 404, body := .errorMsg "TODO não encontrado!" },
           { user with todo := none })
    ∧ patchTodosDone user id
        = ({ status := 404, body := .errorMsg "TODO não encontrado!" },
           { user with todo := none })
    ∧ deleteTodo user id
        = ({ status := 404, body := .errorMsg "TODO não encontrado!" }, user)
    ∧ ((putTodos user id title deadline).2).todos = user.todos
    ∧ ((patchTodosDone user id).2).todos = user.todos
    ∧ ((deleteTodo user id).2).todos = user.todos := by
  have hp : ∀ t ∈ user.todos, (t.id == id) = false := fun t ht =>
    beq_eq_false_iff_ne.mpr (h t ht)
  have hput : putTodos user id title deadline
      = ({ status := 404, body := .errorMsg "TODO não encontrado!" },
         { user with todo := none }) := by
    unfold putTodos
    rw [mutateFirst_eq_none _ hp]
  have hpatch : patchTodosDone user id
      = ({ status := 404, body := .errorMsg "TODO não encontrado!" },
         { user with todo := none }) := by
    unfold patchTodosDone
    rw [mutateFirst_eq_none _ hp]
  have hdel : deleteTodo user id
      = ({ status := 404, body := .errorMsg "TODO não encontrado!" }, user) := by
    unfold deleteTodo
    rw [findIndex_eq_none hp]
  exact ⟨hput, hpatch, hdel, by rw [hput], by rw [hpatch], by rw [hdel]⟩

/-- C2 witness: the concrete user holds only todo "t-1", so id "t-404" is
absent and DELETE leaves the sequence untouched. -/
theorem missing_id_not_found_witness :
    (∀ t ∈ sampleUser.todos, t.id ≠ "t-404")
    ∧ ((deleteTodo sampleUser "t-404").2).todos = sampleUser.todos :=
  ⟨by decide,
   (missing_id_not_found sampleUser "t-404" (some "x") 0 (by decide)).2.2.2.2.2⟩

/-- C4: a successful DELETE removes exactly the first todo carrying the id,
keeps all remaining todos in their relative order, and answers 204 with an
empty body. -/
theorem delete_removes_exactly_one (user : User) (id : String)
    (h : ∃ t ∈ user.todos, t.id = id) :
    ∃ l1 t l2,
      user.todos = l1 ++ t :: l2 ∧ t.id = id ∧ (∀ y ∈ l1, y.id ≠ id)
      ∧ deleteTodo user id
          = ({ status := 204, body := .empty },
             { user with todos := l1 ++ l2 }) := by
  have hp : ∃ t ∈ user.todos, (t.id == id) = true := by
    obtain ⟨t, ht, hte⟩ := h
    exact ⟨t, ht, by simp [hte]⟩
  obtain ⟨l1, t, l2, hsplit, hl1, hpt⟩ := exists_first_match _ user.todos hp
  exact ⟨l1, t, l2, hsplit, by simpa using hpt,
    fun y hy => by simpa using hl1 y hy,
    deleteTodo_eq_of_split user id l1 t l2 hsplit hl1 hpt⟩

/-- C4 witness: deleting the only todo of the concrete user yields 204 and
an empty sequence. -/
theorem delete_removes_exactly_one_witness :
    (∃ t ∈ sampleUser.todos, t.id = "t-1")
    ∧ deleteTodo sampleUser "t-1"
        = ({ status := 204, body := .empty }, { sampleUser with todos := [] }) := by
  refine ⟨by decide, ?_⟩
  obtain ⟨l1, t, l2, hsplit, -, -, hdel⟩ :=
    delete_removes_exactly_one sampleUser "t-1" (by decide)
  have hlen := congrArg List.length hsplit
  simp [sampleUser] at hlen
  have h1 : l1.length = 0 := by omega
  have h2 : l2.length = 0 := by omega
  have hnil : l1 ++ l2 = [] := by
    simp [List.length_eq_zero.mp h1, List.length_eq_zero.mp h2]
  rw [hdel, hnil]

/-- C5: a successful PUT rewrites exactly the first matching todo, replacing
only `title` and `deadline` in place (its `id`, `done`, `created_at` are
kept), leaves every other todo and the sequence's length and order
untouched, and returns the rewritten todo with 200. -/
theorem update_in_place (user : User) (id : String) (title : Option String)
    (deadline : Int) (h : ∃ t ∈ user.todos, t.id = id) :
    ∃ l1 t l2,
      user.todos = l1 ++ t :: l2 ∧ t.id = id ∧ (∀ y ∈ l1, y.id ≠ id)
      ∧ putTodos user id title deadline
          = ({ status := 200,
               body := .todoJson { id := t.id, title := title, done := t.done,
                                   deadline := deadline,
                                   created_at := t.created_at } },
             { user with
                 todos := l1 ++ { id := t.id, title := title, done := t.done,
                                  deadline := deadline,
                                  created_at := t.created_at } :: l2,
                 todo := some { id := t.id, title := title, done := t.done,
                                deadline := deadline,
                                created_at := t.created_at } }) := by
  have hp : ∃ t ∈ user.todos, (t.id == id) = true := by
    obtain ⟨t, ht, hte⟩ := h
    exact ⟨t, ht, by simp [hte]⟩
  obtain ⟨l1, t, l2, hsplit, hl1, hpt⟩ := exists_first_match _ user.todos hp
  exact ⟨l1, t, l2, hsplit, by simpa using hpt,
    fun y hy => by simpa using hl1 y hy,
    putTodos_eq_of_split user id title deadline l1 t l2 hsplit hl1 hpt⟩

/-- C5 witness: updating the only todo of the concrete user answers 200 and
keeps `id`, `done`, `created_at`. -/
theorem update_in_place_witness :
    (∃ t ∈ sampleUser.todos, t.id = "t-1")
    ∧ putTodos sampleUser "t-1" (some "buy bread") 42
        = ({ status := 200,
             body := .todoJson { id := "t-1", title := some "buy bread",
                                 done := false, deadline := 42,
                                 created_at := 1700000000000 } },
           { sampleUser with
               todos := [{ id := "t-1", title := some "buy bread",
                           done := false, deadline := 42,
                           created_at := 1700000000000 }],
               todo := some { id := "t-1", title := some "buy bread",
                              done := false, deadline := 42,
                              created_at := 1700000000000 } }) := by
  refine ⟨by decide, ?_⟩
  obtain ⟨l1, t, l2, hsplit, -, -, hput⟩ :=
    update_in_place sampleUser "t-1" (some "buy bread") 42 (by decide)
  have hs : sampleUser.todos = [sampleTodo] := rfl
  rw [hs] at hsplit
  cases l1 with
  | nil =>
      rw [List.nil_append] at hsplit
      injection hsplit with h1 h2
      subst h1
      subst h2
      exact hput
  | cons a l1' =>
      exfalso
      have hlen := congrArg List.length hsplit
      simp at hlen

/-- C7: POST /todos builds the new todo from its inputs — `done` false,
`created_at` the current clock, `deadline` the parsed input timestamp, id
the freshly generated uuid — appends it at the end of the resolved user's
sequence, and answers 201 with the todo; when the generated id is fresh it
differs from every id already stored. -/
theorem create_appends_fresh_todo (user : User) (newId : String)
    (title : Option String) (deadline now : Int)
    (h : ∀ t ∈ user.todos, t.id ≠ newId) :
    postTodos user newId title deadline now
        = ({ status := 201,
             body := .todoJson { id := newId, title := title, done := false,
                                 deadline := deadline, created_at := now } },
           { user with
               todos := user.todos
                 ++ [{ id := newId, title := title, done := false,
                       deadline := deadline, created_at := now }] })
    ∧ ∀ t ∈ user.todos,
        t.id ≠ (Todo.mk newId title false deadline now).id :=
  ⟨rfl, h⟩

/-- C7 witness: creating a todo with fresh id "t-2" on the concrete user. -/
theorem create_appends_fresh_todo_witness :
    (∀ t ∈ sampleUser.todos, t.id ≠ "t-2")
    ∧ (postTodos sampleUser "t-2" (some "walk") 5 6).1.status = 201 := by
  refine ⟨by decide, ?_⟩
  rw [(create_appends_fresh_todo sampleUser "t-2" (some "walk") 5 6 (by decide)).1]

/-- Repeated POST /todos, feeding each generated id / title / deadline in
turn (the clock is held fixed; it does not affect ordering). -/
def createMany (user : User) (now : Int) :
    List (String × Option String × Int) → User
  | [] => user
  | (newId, title, deadline) :: rest =>
      createMany (postTodos user newId title deadline now).2 now rest

theorem createMany_todos (now : Int) :
    ∀ (inputs : List (String × Option String × Int)) (user : User),
      (createMany user now inputs).todos
        = user.todos ++ inputs.map (fun i =>
            { id := i.1, title := i.2.1, done := false, deadline := i.2.2,
              created_at := now })
  | [], user => by simp [createMany]
  | (newId, title, deadline) :: rest, user => by
      simp [createMany, createMany_todos now rest, postTodos]

/-- C8: GET /todos always answers 200 with the resolved user's `todos`
verbatim and in stored order, mutating nothing; after any run of creations
the listing shows exactly the previous todos followed by the created ones in
creation order. -/
theorem list_returns_verbatim (user : User) (now : Int)
    (inputs : List (String × Option String × Int)) :
    getTodos user = ({ status := 200, body := .todosJson user.todos }, user)
    ∧ (getTodos (createMany user now inputs)).1
        = { status := 200,
            body := .todosJson (user.todos ++ inputs.map (fun i =>
              { id := i.1, title := i.2.1, done := false, deadline := i.2.2,
                created_at := now })) } := by
  refine ⟨rfl, ?_⟩
  simp [getTodos, createMany_todos]

/-- C9: PUT and PATCH assign the `todo` property of the user record on every
call — the (mutated) first matching todo on success, and `undefined` when
the id is absent — a mutation of user state outside the `todos` sequence. -/
theorem put_patch_assign_user_todo (user : User) (id : String)
    (title : Option String) (deadline : Int) :
    ((putTodos user id title deadline).2).todo
        = (user.todos.find? (fun t => t.id == id)).map
            (fun t => { t with title := title, deadline := deadline })
    ∧ ((patchTodosDone user id).2).todo
        = (user.todos.find? (fun t => t.id == id)).map
            (fun t => { t with done := true }) := by
  constructor
  · have hdup := mutateFirst_dup_fst (fun t => t.id == id)
      (fun t => { t with title := title, deadline := deadline }) user.todos
    rw [← hdup]
    unfold putTodos
    cases hm : mutateFirst (fun todo => todo.id == id)
        (fun todo => ({ todo with title := title, deadline := deadline },
                      { todo with title := title, deadline := deadline }))
        user.todos with
    | none => rfl
    | some r => cases r with | mk t' ts' => rfl
  · have hdup := mutateFirst_dup_fst (fun t => t.id == id)
      (fun t => { t with done := true }) user.todos
    rw [← hdup]
    unfold patchTodosDone
    cases hm : mutateFirst (fun todo => todo.id == id)
        (fun todo => ({ todo with done := true }, { todo with done := true }))
        user.todos with
    | none => rfl
    | some r => cases r with | mk t' ts' => rfl

/-- C3: PATCH on a present id sets `done` to true unconditionally and
answers 200 with the todo; re-running PATCH on the same id reproduces the
same response and changes nothing further; and no handler ever moves a
stored `done` from true back to false — PUT keeps every `done` verbatim,
PATCH only raises them, POST only appends a `done = false` todo, and DELETE
only drops entries. -/
theorem complete_idempotent_and_done_monotone (user : User) (id : String)
    (h : ∃ t ∈ user.todos, t.id = id) :
    (∃ l1 t l2,
      user.todos = l1 ++ t :: l2 ∧ t.id = id
      ∧ patchTodosDone user id
          = ({ status := 200, body := .todoJson { t with done := true } },
             { user with todos := l1 ++ { t with done := true } :: l2,
                         todo := some { t with done := true } }))
    ∧ patchTodosDone (patchTodosDone user id).2 id = patchTodosDone user id
    ∧ (∀ (u : User) (i : String),
        List.Forall₂ (fun a b => a = true → b = true)
          (u.todos.map Todo.done) (((patchTodosDone u i).2).todos.map Todo.done))
    ∧ (∀ (u : User) (i : String) (title : Option String) (dl : Int),
        ((putTodos u i title dl).2).todos.map Todo.done
          = u.todos.map Todo.done)
    ∧ (∀ (u : User) (newId : String) (title : Option String) (dl now : Int),
        ((postTodos u newId title dl now).2).todos.map Todo.done
          = u.todos.map Todo.done ++ [false])
    ∧ (∀ (u : User) (i : String),
        (((deleteTodo u i).2).todos.map Todo.done).Sublist
          (u.todos.map Todo.done)) := by
  have hp : ∃ t ∈ user.todos, (t.id == id) = true := by
    obtain ⟨t, ht, hte⟩ := h
    exact ⟨t, ht, by simp [hte]⟩
  obtain ⟨l1, t, l2, hsplit, hl1, hpt⟩ := exists_first_match _ user.todos hp
  have h1 := patchTodosDone_eq_of_split user id l1 t l2 hsplit hl1 hpt
  refine ⟨⟨l1, t, l2, hsplit, by simpa using hpt, h1⟩, ?_,
    patchTodosDone_done_mono, putTodos_dones, postTodos_dones,
    fun u i => (deleteTodo_todos_sublist u i).map Todo.done⟩
  have h2 := patchTodosDone_eq_of_split
      { user with todos := l1 ++ { t with done := true } :: l2,
                  todo := some { t with done := true } }
      id l1 { t with done := true } l2 rfl hl1 hpt
  rw [h1]
  rw [h2]

/-- C3 witness: completing the concrete user's only todo twice is a no-op
success the second time. -/
theorem complete_idempotent_and_done_monotone_witness :
    (∃ t ∈ sampleUser.todos, t.id = "t-1")
    ∧ patchTodosDone (patchTodosDone sampleUser "t-1").2 "t-1"
        = patchTodosDone sampleUser "t-1" :=
  ⟨by decide,
   (complete_idempotent_and_done_monotone sampleUser "t-1" (by decide)).2.1⟩

/-- C6 counterexample: the claim asserts that a todo request whose username
header is absent is always short-circuited with a client-error response.
On the store holding the (reachable) user created from an empty request
body, a GET /todos with no username header instead resolves that user
(absent header `===` absent username) and succeeds with 200. -/
theorem resolver_absent_header_counterexample :
    Reachable [anonUser]
    ∧ (handleTodoRequest [anonUser] none TodoRequest.list "t-9" 0).1
        = { status := 200, body := .todosJson [] }
    ∧ ¬ (400 ≤ (handleTodoRequest [anonUser] none TodoRequest.list "t-9" 0).1.status) := by
  refine ⟨?_, rfl, by decide⟩
  have h := Reachable.post "u-0" none none Reachable.init
  have he : (postUsers [] "u-0" none none).2 = [anonUser] := by decide
  rw [he] at h
  exact h

/-- C6 (amended): for every todo request whose username header value —
present or absent — is `===`-equal to no stored user's `username`, the
middleware short-circuits with a 400 "Usuário não encontrado!" response,
the downstream handler is not invoked and the store (hence every user's
todos) is untouched; when some user matches, the first matching user is the
one attached for the downstream handler, and the handler's effect lands at
exactly that user's position. -/
theorem resolver_short_circuit (users : List User) (username : Option String)
    (handler : User → Response × User)
    (h : checksExistsUserAccount users username = none) :
    route users username handler
        = ({ status := 400, body := .errorMsg "Usuário não encontrado!" }, users)
    ∧ ∀ (users' : List User) (uname : Option String)
        (hdl : User → Response × User) (u : User),
        checksExistsUserAccount users' uname = some u →
        ∃ l1 l2, users' = l1 ++ u :: l2 ∧ (∀ y ∈ l1, y.username ≠ uname)
          ∧ u.username = uname
          ∧ route users' uname hdl = ((hdl u).1, l1 ++ (hdl u).2 :: l2) := by
  constructor
  · have hp : ∀ x ∈ users, (x.username == username) = false := by
      intro x hx
      have hx' := List.find?_eq_none.mp h x hx
      simpa using hx'
    unfold route
    rw [mutateFirst_eq_none _ hp]
  · intro users' uname hdl u hfind
    obtain ⟨l1, l2, hsplit, hl1, hpu⟩ := find?_eq_some_split hfind
    refine ⟨l1, l2, hsplit, fun y hy => by simpa using hl1 y hy,
      by simpa using hpu, ?_⟩
    unfold route
    rw [hsplit, mutateFirst_of_split _ _ l1 u l2 hl1 hpu]

/-- C6 witness: no stored user is named "bob", so a GET /todos as "bob" is
rejected with 400 and the store is untouched. -/
theorem resolver_short_circuit_witness :
    checksExistsUserAccount [sampleUser] (some "bob") = none
    ∧ route [sampleUser] (some "bob") getTodos
        = ({ status := 400, body := .errorMsg "Usuário não encontrado!" },
           [sampleUser]) :=
  ⟨by decide,
   (resolver_short_circuit [sampleUser] (some "bob") getTodos (by decide)).1⟩

/-- C10: POST /users validates nothing: a body with no `username` (and no
`name`) still creates a user — provided no stored user already carries an
absent `username` — and a later todo request with no username header
resolves to that user, because the absent header value and the absent
stored username compare `===`-equal; its GET /todos succeeds with the empty
listing. -/
theorem create_user_without_username (users : List User) (newId : String)
    (h : ∀ x ∈ users, x.username ≠ none) :
    postUsers users newId none none
        = ({ status := 201,
             body := .userJson { id := newId, name := none, username := none,
                                 todos := [], todo := none } },
           users ++ [{ id := newId, name := none, username := none,
                       todos := [], todo := none }])
    ∧ checksExistsUserAccount (postUsers users newId none none).2 none
        = some { id := newId, name := none, username := none, todos := [],
                 todo := none }
    ∧ ∀ (newId' : String) (now : Int),
        (handleTodoRequest (postUsers users newId none none).2 none
            TodoRequest.list newId' now).1
          = { status := 200, body := .todosJson [] } := by
  have hp : ∀ x ∈ users, (x.username == (none : Option String)) = false :=
    fun x hx => beq_eq_false_iff_ne.mpr (h x hx)
  have hpost := postUsers_fresh users newId none none h
  have hstore : (postUsers users newId none none).2
      = users ++ [{ id := newId, name := none, username := none, todos := [],
                    todo := none }] := by
    rw [hpost]
  refine ⟨hpost, ?_, ?_⟩
  · unfold checksExistsUserAccount
    rw [hstore]
    exact find?_of_split _ users _ [] hp rfl
  · intro newId' now
    unfold handleTodoRequest route
    rw [hstore, mutateFirst_of_split _ _ users
      { id := newId, name := none, username := none, todos := [], todo := none }
      [] hp rfl]
    rfl

/-- C10 witness: on the empty store, a user is created from an empty body
and the headerless GET /todos then succeeds with the empty listing. -/
theorem create_user_without_username_witness :
    (∀ x ∈ ([] : List User), x.username ≠ none)
    ∧ (handleTodoRequest (postUsers [] "u-9" none none).2 none
          TodoRequest.list "t-9" 0).1
        = { status := 200, body := .todosJson [] } :=
  ⟨by decide,
   (create_user_without_username [] "u-9" (by decide)).2.2 "t-9" 0⟩

/-- C1: every reachable store has pairwise distinct usernames; POST /users
with a taken username answers 400 and leaves the store unchanged; with a
fresh username it appends the new user (empty `todos`) and returns it with
201; consequently creating the same username twice yields the conflict on
the second attempt and leaves exactly one user carrying it. -/
theorem unique_usernames_and_create (users : List User) (hr : Reachable users)
    (newId newId' : String) (name name' u : Option String) :
    UniqueUsernames users
    ∧ ((∃ x ∈ users, x.username = u) →
        (postUsers users newId name u).1.status = 400
        ∧ (postUsers users newId name u).2 = users)
    ∧ ((∀ x ∈ users, x.username ≠ u) →
        postUsers users newId name u
          = ({ status := 201,
               body := .userJson { id := newId, name := name, username := u,
                                   todos := [], todo := none } },
             users ++ [{ id := newId, name := name, username := u,
                         todos := [], todo := none }]))
    ∧ ((∀ x ∈ users, x.username ≠ u) →
        (postUsers (postUsers users newId name u).2 newId' name' u).1.status = 400
        ∧ ((postUsers (postUsers users newId name u).2 newId' name' u).2).countP
            (fun x => x.username == u) = 1) := by
  refine ⟨reachable_uniqueUsernames hr, postUsers_conflict users newId name u,
    postUsers_fresh users newId name u, ?_⟩
  intro hfr
  have hstore : (postUsers users newId name u).2
      = users ++ [{ id := newId, name := name, username := u, todos := [],
                    todo := none }] := by
    rw [postUsers_fresh users newId name u hfr]
  have hmem : ∃ x ∈ (postUsers users newId name u).2, x.username = u := by
    rw [hstore]
    exact ⟨_, List.mem_append_right users (List.mem_singleton.mpr rfl), rfl⟩
  have hconf := postUsers_conflict (postUsers users newId name u).2 newId' name' u hmem
  refine ⟨hconf.1, ?_⟩
  rw [hconf.2, hstore]
  have h0 : users.countP (fun x => x.username == u) = 0 :=
    List.countP_eq_zero.mpr fun x hx => by
      simp [beq_eq_false_iff_ne.mpr (hfr x hx)]
  simp [List.countP_append, h0, List.countP_cons]

/-- C1 witness: creating username "ana" twice from the empty (reachable)
store leaves exactly one stored user named "ana". -/
theorem unique_usernames_and_create_witness :
    Reachable ([] : List User)
    ∧ ((postUsers (postUsers [] "u-1" (some "Ana") (some "ana")).2 "u-2"
          (some "Bia") (some "ana")).2).countP
        (fun x => x.username == some "ana") = 1 :=
  ⟨Reachable.init,
   ((unique_usernames_and_create [] Reachable.init "u-1" "u-2" (some "Ana")
      (some "Bia") (some "ana")).2.2.2 (by decide)).2⟩

end TodoApp
